import Mathlib

/-!
Verification of the pagination/event-formatting CLI tool
(`src/atomicAqua/src/fetch_history.py`) against its specification.

The Python functions `format_event`, `fetch_history` and `main` are shallowly
embedded below.  Python values of type `Any` are modelled by `PyVal`; dicts are
association lists with string keys (Python dict keys are unique, lookup takes
the first match); operations that can raise (`for` over a non-iterable,
`x[k]` on a non-dict, `.get`/`.upper` on objects lacking the attribute,
`" ".join` over non-strings) return `Except String` with the exception class
as the message.  Printing is modelled by returning the list of arguments of
the `print` calls, in order.
-/

namespace AtomicAqua

/-- A dynamically typed Python value, as far as `fetch_history.py` inspects
them: strings, ints, booleans, `None`, lists and string-keyed dicts. -/
inductive PyVal where
  | str : String → PyVal
  | int : Int → PyVal
  | bool : Bool → PyVal
  | noneV : PyVal
  | list : List PyVal → PyVal
  | dict : List (String × PyVal) → PyVal

/-- A Python event dict (`dict[str, Any]`), per the annotation of
`format_event`. -/
abbrev PyDict := List (String × PyVal)

/-- Python `d.get(k, dflt)` on a dict. -/
def pyGet (d : PyDict) (k : String) (dflt : PyVal) : PyVal :=
  (d.lookup k).getD dflt

mutual

/-- Python `repr` of a value, as used by `str` on containers.  For strings we
always render with single quotes and no escaping; the source never feeds a
container of quote-bearing strings to an f-string, so the simplification is
unobservable in the properties below. -/
def pyReprOf : PyVal → String
  | .str s => "\x27" ++ s ++ "\x27"
  | .int n => toString n
  | .bool b => if b then "True" else "False"
  | .noneV => "None"
  | .list l => "[" ++ String.intercalate ", " (pyReprList l) ++ "]"
  | .dict d => "\x7b" ++ String.intercalate ", " (pyReprDict d) ++ "\x7d"

def pyReprList : List PyVal → List String
  | [] => []
  | x :: xs => pyReprOf x :: pyReprList xs

def pyReprDict : List (String × PyVal) → List String
  | [] => []
  | (k, v) :: xs => ("\x27" ++ k ++ "\x27: " ++ pyReprOf v) :: pyReprDict xs

end

/-- Python `str(v)`, as applied by f-string interpolation. -/
def pyStrOf : PyVal → String
  | .str s => s
  | v => pyReprOf v

/-- Iterating a Python value (`for x in v`): lists yield their elements,
strings their one-character substrings, dicts their keys; other values raise
`TypeError`. -/
def pyIter : PyVal → Except String (List PyVal)
  | .list l => .ok l
  | .str s => .ok (s.data.map fun c => .str (String.mk [c]))
  | .dict d => .ok (d.map fun kv => .str kv.1)
  | _ => .error "TypeError: object is not iterable"

/-- Whether `needle` occurs as a contiguous run inside `hay` (Python `in`
on strings, on the character lists). -/
def charsContain (hay needle : List Char) : Bool :=
  match hay with
  | [] => needle.isEmpty
  | _ :: t => needle.isPrefixOf hay || charsContain t needle

/-- Python `needle in v` for a string needle: key test on dicts, substring
test on strings, element test on lists (a string needle only equals string
elements); raises `TypeError` otherwise. -/
def pyContainsStr (needle : String) : PyVal → Except String Bool
  | .dict d => .ok (d.any fun kv => kv.1 == needle)
  | .str s => .ok (charsContain s.data needle.data)
  | .list l => .ok (l.any fun v => match v with | .str s => s == needle | _ => false)
  | _ => .error "TypeError: argument of type is not iterable"

/-- Python `v[k]` for a string key `k`: only dicts support string subscripts
(`KeyError` when absent); strings and lists want integer indices. -/
def pyGetItemStr (v : PyVal) (k : String) : Except String PyVal :=
  match v with
  | .dict d =>
      match d.lookup k with
      | some x => .ok x
      | none => .error "KeyError"
  | _ => .error "TypeError: indices must be integers"

/-- Python `v.get(k, dflt)`: only dicts have a `get` attribute. -/
def pyDotGet (v : PyVal) (k : String) (dflt : PyVal) : Except String PyVal :=
  match v with
  | .dict d => .ok ((d.lookup k).getD dflt)
  | _ => .error "AttributeError: object has no attribute get"

/-- Python `str.upper()` on the underlying characters (ASCII case mapping;
the roles this repository stores are ASCII). -/
def strUpper (s : String) : String :=
  String.mk (s.data.map Char.toUpper)

/-- Python `v.upper()`: only strings have an `upper` attribute. -/
def pyUpper : PyVal → Except String String
  | .str s => .ok (strUpper s)
  | _ => .error "AttributeError: object has no attribute upper"

/-- The list comprehension
`[c.get("text", "") for c in content if isinstance(c, dict) and "text" in c]`
from `format_event` (src/fetch_history.py:24-27): the `text` values of those
fragments that are dicts carrying a `text` key, in order; other fragments
contribute nothing.  The guard makes the `.get` default unreachable. -/
def textParts (content : List PyVal) : List PyVal :=
  content.filterMap fun c =>
    match c with
    | .dict d => d.lookup "text"
    | _ => none

/-- The string checks of `" ".join(parts)`: the parts in order when all are
strings, `TypeError` at the first part that is not. -/
def joinParts : List PyVal → Except String (List String)
  | [] => .ok []
  | PyVal.str s :: rest =>
      match joinParts rest with
      | .ok l => .ok (s :: l)
      | .error m => .error m
  | _ :: _ => .error "TypeError: sequence item: expected str instance"

/-- Python `sep.join(parts)`: raises `TypeError` on any non-string part. -/
def pyJoin (sep : String) (parts : List PyVal) : Except String String :=
  match joinParts parts with
  | .ok l => .ok (String.intercalate sep l)
  | .error m => .error m

/-- Sequencing of two possibly-raising Python operations: a raised exception
propagates, otherwise evaluation continues with the value. -/
def exBind {α β : Type} (e : Except String α) (f : α → Except String β) :
    Except String β :=
  match e with
  | .error m => .error m
  | .ok a => f a

/-- The reassignment `if isinstance(content, list): content = " ".join(...)`
(src/fetch_history.py:23-28): a list is replaced by the joined text of its
fragments (which can raise), anything else passes through to the f-string. -/
def contentToVal (content : PyVal) : Except String PyVal :=
  match content with
  | PyVal.list frags =>
      exBind (pyJoin " " (textParts frags)) fun j => .ok (PyVal.str j)
  | c => .ok c

/-- The body of the `for payload_item in ...` loop of `format_event`
(src/fetch_history.py:16-30) for a single payload item: `some line` when the
item has a `conversational` variant, `none` when the item is skipped. -/
def formatItem (payload_item : PyVal) : Except String (Option String) :=
  exBind (pyContainsStr "conversational" payload_item) fun b =>
    if b then
      exBind (pyGetItemStr payload_item "conversational") fun conv =>
      exBind (pyDotGet conv "role" (.str "UNKNOWN")) fun roleV =>
      exBind (pyUpper roleV) fun role =>
      exBind (pyDotGet conv "content" (.str "")) fun content =>
      exBind (contentToVal content) fun content2 =>
      Except.ok (some ("[" ++ role ++ "] " ++ pyStrOf content2))
    else
      .ok none

/-- The whole payload loop of `format_event`: the accumulated `lines`. -/
def formatItems : List PyVal → Except String (List String)
  | [] => .ok []
  | item :: rest =>
      match formatItem item with
      | .error m => .error m
      | .ok (some line) =>
          match formatItems rest with
          | .error m => .error m
          | .ok ls => .ok (line :: ls)
      | .ok none => formatItems rest

/-- Embedding of `format_event` (src/fetch_history.py:10-34).  Returns the
formatted string, or the exception the Python function would raise. -/
def format_event (event : PyDict) : Except String String :=
  let event_id := pyGet event "eventId" (.str "unknown")
  let timestamp := pyGet event "createdAt" (.str "")
  match pyIter (pyGet event "payload" (.list [])) with
  | .error m => .error m
  | .ok payload =>
      match formatItems payload with
      | .error m => .error m
      | .ok lines =>
          if lines.isEmpty then
            .ok ("Event " ++ pyStrOf event_id ++ " (" ++ pyStrOf timestamp
                 ++ "): (no conversational content)")
          else
            .ok ("Event " ++ pyStrOf event_id ++ " (" ++ pyStrOf timestamp
                 ++ "):\n"
                 ++ String.intercalate "\n" (lines.map fun l => "  " ++ l))

/-! ### The external event-listing API and `fetch_history` -/

/-- The error taxonomy of the external collaborator (spec §7): none of these
originate in the tool itself. -/
inductive ApiError where
  | authenticationError
  | notFoundError
  | invalidCursorError
  | transportError

/-- Modelled from the spec: the external paginated event-listing API (the
managed memory service behind `boto3`/`list_events`, spec §3 and §6), which is
not part of this repository.  The service holds the ordered event log of one
`(memoryId, actorId, sessionId)` conversation; a continuation cursor is an
opaque token marking the position to resume listing from; `failure`, when set,
makes every request fail with that error (credentials, missing resource,
transport). -/
structure MemoryService where
  events : List PyDict
  failure : Option ApiError := Option.none

/-- Modelled from the spec: the service's opaque continuation cursor for the
position after `n` events (spec glossary: "opaque token ... marking the
position to resume listing from"). -/
def encodeCursor (n : Nat) : String :=
  String.mk (List.replicate n 'x')

/-- Modelled from the spec: how the service reads a cursor back; a token the
service never issued is malformed (spec §4.1 `InvalidCursorError`). -/
def decodeCursor (s : String) : Option Nat :=
  if s.data.all (fun c => c == 'x') then some s.data.length else Option.none

/-- Modelled from the spec: the page of at most `pageSize` events beginning
at position `start` of the log, plus the continuation cursor when more data
remains after it (spec §3: "A Page with no cursor is the final page"). -/
def svcPageAt (svc : MemoryService) (pageSize start : Nat) :
    List PyDict × Option String :=
  ((svc.events.drop start).take pageSize,
   if start + pageSize < svc.events.length then
     some (encodeCursor (start + pageSize))
   else
     Option.none)

/-- Modelled from the spec: one page request to the external API (spec §6):
at most `pageSize` events starting at the cursor position, plus a new
continuation cursor when more data remains; a malformed cursor fails with
`InvalidCursorError`, and a failing service fails every request. -/
def svcListEvents (svc : MemoryService) (pageSize : Nat)
    (startToken : Option String) :
    Except ApiError (List PyDict × Option String) :=
  match svc.failure with
  | some e => .error e
  | none =>
      match startToken with
      | none => .ok (svcPageAt svc pageSize 0)
      | some t =>
          match decodeCursor t with
          | none => .error .invalidCursorError
          | some start => .ok (svcPageAt svc pageSize start)

/-- The fetch half of `fetch_history` (src/fetch_history.py:54-80): builds the
pagination config (`StartingToken` only when `next_token` is truthy — Python
treats the empty string as falsy), starts the page iterator, and the
`for page in page_iterator: ...; break` loop consumes exactly the first page,
recording the iterator's resume token.  The second component counts the page
requests the iterator issued (one per consumed page; a failing request also
counts).  `truthyToken` is the `if next_token:` truthiness guard: an empty
string counts as no token. -/
def truthyToken : Option String → Option String
  | some t => if t.isEmpty then Option.none else some t
  | none => Option.none

def fetchPage (svc : MemoryService)
    (memory_id region user_id session_id : String)
    (limit : Nat) (next_token : Option String) :
    Except ApiError (List PyDict × Option String) × Nat :=
  match svcListEvents svc limit (truthyToken next_token) with
  | .error e => (.error e, 1)
  | .ok (events, resume) => (.ok (events, resume), 1)

/-- The per-event print loop of `fetch_history` (src/fetch_history.py:88-91):
each event contributes `print(formatted)` and an empty `print()`.  When
`format_event` raises, the lines already printed stand and the exception is
returned alongside them. -/
def renderBlocks : List PyDict → List String × Option String
  | [] => ([], Option.none)
  | e :: rest =>
      match format_event e with
      | .error m => ([], some m)
      | .ok f =>
          let (bs, err) := renderBlocks rest
          (f :: "" :: bs, err)

/-- The final `if resume_token:` branch of the rendering
(src/fetch_history.py:95-99): the two resumption-instruction lines when the
resume token is truthy (Python truthiness: present and non-empty), the
`"No more events."` notice otherwise. -/
def cursorTail : Option String → List String
  | some t =>
      if t.isEmpty then ["\nNo more events."]
      else
        ["\nMore events available. Use --next-token to fetch next page:",
         "--next-token \"" ++ t ++ "\""]
  | none => ["\nNo more events."]

/-- The rendering half of `fetch_history` (src/fetch_history.py:82-99), the
spec's `formatPage`: the list of `print`-call arguments, in order, plus the
exception if one was raised mid-way. -/
def formatPage (user_id session_id : String) (all_events : List PyDict)
    (resume_token : Option String) : List String × Option String :=
  if all_events.isEmpty then
    (["No events found."], Option.none)
  else
    match renderBlocks all_events with
    | (blocks, some err) =>
        (("=== Conversation History (user: " ++ user_id ++ ", session: "
            ++ session_id ++ ") ===\n") :: blocks,
         some err)
    | (blocks, none) =>
        (("=== Conversation History (user: " ++ user_id ++ ", session: "
            ++ session_id ++ ") ===\n") :: blocks
           ++ ["--- Showing " ++ toString all_events.length
                ++ " event(s) ---"]
           ++ cursorTail resume_token,
         Option.none)

/-- An error escaping `fetch_history`: an API error from the collaborator or
a Python exception from formatting. -/
inductive FetchError where
  | api : ApiError → FetchError
  | py : String → FetchError

/-- Embedding of `fetch_history` (src/fetch_history.py:46-99): the printed
lines, the error that escaped (if any), and the number of page requests
issued. -/
def fetch_history (svc : MemoryService)
    (memory_id region user_id session_id : String)
    (limit : Nat) (next_token : Option String) :
    List String × Option FetchError × Nat :=
  match fetchPage svc memory_id region user_id session_id limit next_token with
  | (.error e, n) => ([], some (.api e), n)
  | (.ok (events, resume), n) =>
      let (out, err) := formatPage user_id session_id events resume
      (out, err.map .py, n)

/-! ### The CLI entry point `main` -/

/-- The parsed command-line arguments of `main` (src/fetch_history.py:103-145)
with argparse's defaults: `--limit` defaults to `20`, `--next-token`,
`--memory-id` and `--region` default to `None`. -/
structure Args where
  user_id : String
  session_id : String
  limit : Int := 20
  next_token : Option String := Option.none
  memory_id : Option String := Option.none
  region : Option String := Option.none

/-- The argument tuple `main` passes to `fetch_history`
(src/fetch_history.py:147-158): `(memory_id, region, user_id, session_id,
limit, next_token)`.  The source assigns the literals
`"aqua_memory_v1-ou5CPqEFsu"` and `"eu-central-1"` to `memory_id` and
`region` after parsing, so the parsed `--memory-id` and `--region` values are
never consulted. -/
def mainFetchArgs (args : Args) :
    String × String × String × String × Int × Option String :=
  let memory_id := "aqua_memory_v1-ou5CPqEFsu"
  let region := "eu-central-1"
  (memory_id, region, args.user_id, args.session_id, args.limit,
   args.next_token)

/-! ### Helper lemmas -/

/-- The first `n` characters of a string. -/
def strTake (n : Nat) (s : String) : List Char :=
  s.data.take n

theorem strTake_append_left (n : Nat) (p u : String) (h : n ≤ p.data.length) :
    strTake n (p ++ u) = strTake n p := by
  unfold strTake
  rw [String.data_append]
  exact List.take_append_of_le_length h

theorem le_data_length_append (n : Nat) (p u : String)
    (h : n ≤ p.data.length) : n ≤ (p ++ u).data.length := by
  rw [String.data_append, List.length_append]
  omega

theorem ne_of_strTake (n : Nat) (s t : String)
    (h : strTake n s ≠ strTake n t) : s ≠ t := by
  intro he
  exact h (by rw [he])

theorem strTake_eventPre (a b c : String) :
    strTake 6 ("Event " ++ a ++ " (" ++ b ++ c) = "Event ".data := by
  have h1 : (6 : Nat) ≤ ("Event " : String).data.length := by decide
  have h2 := le_data_length_append 6 "Event " a h1
  have h3 := le_data_length_append 6 ("Event " ++ a) " (" h2
  have h4 := le_data_length_append 6 ("Event " ++ a ++ " (") b h3
  rw [strTake_append_left 6 _ c h4, strTake_append_left 6 _ b h3,
      strTake_append_left 6 _ " (" h2, strTake_append_left 6 _ a h1]
  rfl

theorem append_paren_colon (A : String) :
    A ++ "): (no conversational content)"
      = (A ++ ")") ++ ": (no conversational content)" := by
  have h : ("): (no conversational content)" : String)
      = ")" ++ ": (no conversational content)" := rfl
  rw [h, ← String.append_assoc]

theorem append_paren_colon_nl (A J : String) :
    A ++ "):\n" ++ J = (A ++ ")") ++ (":\n" ++ J) := by
  have h : ("):\n" : String) = ")" ++ ":\n" := rfl
  rw [h, ← String.append_assoc A ")" ":\n", String.append_assoc (A ++ ")") ":\n" J]

/-- Any string `format_event` returns starts with
`"Event " ++ id ++ " (" ++ timestamp ++ ")"` where `id` and `timestamp` are
the (defaulted, stringified) `eventId` and `createdAt` fields. -/
theorem format_event_shape (event : PyDict) (s : String)
    (h : format_event event = .ok s) :
    ∃ r, s = "Event " ++ pyStrOf (pyGet event "eventId" (.str "unknown"))
      ++ " (" ++ pyStrOf (pyGet event "createdAt" (.str "")) ++ ")" ++ r := by
  unfold format_event at h
  split at h
  · simp at h
  · split at h
    · simp at h
    · split at h
      · injection h with h
        subst h
        exact ⟨_, append_paren_colon _⟩
      · injection h with h
        subst h
        exact ⟨_, append_paren_colon_nl _ _⟩

/-- Any string `format_event` returns starts with the six characters
`"Event "`. -/
theorem format_event_head (event : PyDict) (s : String)
    (h : format_event event = .ok s) : strTake 6 s = "Event ".data := by
  obtain ⟨r, hr⟩ := format_event_shape event s h
  subst hr
  have h1 : (6 : Nat) ≤ ("Event " : String).data.length := by decide
  have h2 := le_data_length_append 6 "Event "
    (pyStrOf (pyGet event "eventId" (.str "unknown"))) h1
  have h3 := le_data_length_append 6 _ " (" h2
  have h4 := le_data_length_append 6 _
    (pyStrOf (pyGet event "createdAt" (.str ""))) h3
  have h5 := le_data_length_append 6 _ ")" h4
  rw [strTake_append_left 6 _ r h5, strTake_append_left 6 _ ")" h4,
      strTake_append_left 6 _ _ h3, strTake_append_left 6 _ " (" h2,
      strTake_append_left 6 _ _ h1]
  rfl

theorem format_event_ne_empty (event : PyDict) (s : String)
    (h : format_event event = .ok s) : s ≠ "" := by
  refine ne_of_strTake 6 s "" ?_
  rw [format_event_head event s h]
  decide

/-- Every line the per-event loop prints is either the blank separator or a
`format_event` rendering, hence starts with `"Event "`. -/
theorem renderBlocks_mem (l : List PyDict) (bs : List String)
    (err : Option String) (h : renderBlocks l = (bs, err)) (x : String)
    (hx : x ∈ bs) : x = "" ∨ strTake 6 x = "Event ".data := by
  induction l generalizing bs err with
  | nil =>
      unfold renderBlocks at h
      injection h with h1 h2
      subst h1
      simp at hx
  | cons e rest ih =>
      unfold renderBlocks at h
      cases hf : format_event e with
      | error m =>
          rw [hf] at h
          injection h with h1 h2
          subst h1
          simp at hx
      | ok f =>
          rw [hf] at h
          obtain ⟨bs', err', hre⟩ : ∃ bs' err', renderBlocks rest = (bs', err') :=
            ⟨_, _, rfl⟩
          rw [hre] at h
          injection h with h1 h2
          subst h1
          rcases List.mem_cons.mp hx with h | hx2
          · subst h
            exact Or.inr (format_event_head e x hf)
          · rcases List.mem_cons.mp hx2 with h | hx3
            · exact Or.inl h
            · exact ih bs' err' hre hx3

theorem fetchPage_requests (svc : MemoryService) (m r u s : String)
    (limit : Nat) (tok : Option String) :
    (fetchPage svc m r u s limit tok).2 = 1 := by
  unfold fetchPage
  split <;> rfl

theorem fetchPage_ok_svc (svc : MemoryService) (m r u s : String)
    (limit : Nat) (tok : Option String) (evs : List PyDict)
    (rt : Option String)
    (h : (fetchPage svc m r u s limit tok).1 = .ok (evs, rt)) :
    svcListEvents svc limit (truthyToken tok) = .ok (evs, rt) := by
  unfold fetchPage at h
  cases hs : svcListEvents svc limit (truthyToken tok) with
  | error e => rw [hs] at h; simp at h
  | ok p =>
      obtain ⟨evs', rt'⟩ := p
      rw [hs] at h
      simp only at h
      injection h with h
      injection h with h1 h2
      subst h1
      subst h2
      rfl

theorem svcListEvents_ok_shape (svc : MemoryService) (pageSize : Nat)
    (startToken : Option String) (evs : List PyDict) (rt : Option String)
    (h : svcListEvents svc pageSize startToken = .ok (evs, rt)) :
    ∃ start, evs = (svc.events.drop start).take pageSize := by
  unfold svcListEvents at h
  split at h
  · simp at h
  · split at h
    · injection h with h
      rw [svcPageAt] at h
      injection h with h1 h2
      exact ⟨_, h1.symm⟩
    · split at h
      · simp at h
      · injection h with h
        rw [svcPageAt] at h
        injection h with h1 h2
        exact ⟨_, h1.symm⟩

/-- C1: every invocation of `fetch_history`, whatever the service holds and
however many pages it reports, issues exactly one page request and collects
the events of the first page only (at most `limit` events), never
auto-advancing to a second page. -/
theorem c1_single_page_per_invocation (svc : MemoryService)
    (m r u s : String) (limit : Nat) (tok : Option String) :
    (fetch_history svc m r u s limit tok).2.2 = 1 ∧
    (fetchPage svc m r u s limit tok).2 = 1 ∧
    (∀ evs rt, (fetchPage svc m r u s limit tok).1 = .ok (evs, rt) →
      evs.length ≤ limit) := by
  refine ⟨?_, fetchPage_requests svc m r u s limit tok, ?_⟩
  · obtain ⟨res, n, hfp⟩ : ∃ res n,
        fetchPage svc m r u s limit tok = (res, n) := ⟨_, _, rfl⟩
    have hn : n = 1 := by
      rw [← fetchPage_requests svc m r u s limit tok, hfp]
    unfold fetch_history
    rw [hfp]
    cases res with
    | error e => simpa using hn
    | ok p =>
        obtain ⟨evs, rt⟩ := p
        simpa using hn
  · intro evs rt h
    obtain ⟨start, hstart⟩ := svcListEvents_ok_shape svc limit
      (truthyToken tok) evs rt (fetchPage_ok_svc svc m r u s limit tok evs rt h)
    rw [hstart]
    exact List.length_take_le _ _

/-- C1 witness: a service that reports three pages (five stored events, page
size two): one request is issued and only the first two events are taken. -/
theorem c1_witness :
    (fetch_history ⟨[[("eventId", PyVal.str "a")], [("eventId", PyVal.str "b")],
        [("eventId", PyVal.str "c")], [("eventId", PyVal.str "d")],
        [("eventId", PyVal.str "e")]], Option.none⟩
      "m" "r" "u" "s" 2 Option.none).2.2 = 1 ∧
    (fetchPage ⟨[[("eventId", PyVal.str "a")], [("eventId", PyVal.str "b")],
        [("eventId", PyVal.str "c")], [("eventId", PyVal.str "d")],
        [("eventId", PyVal.str "e")]], Option.none⟩
      "m" "r" "u" "s" 2 Option.none).2 = 1 ∧
    ([[("eventId", PyVal.str "a")], [("eventId", PyVal.str "b")]] :
      List PyDict).length ≤ 2 :=
  ⟨(c1_single_page_per_invocation
      ⟨[[("eventId", PyVal.str "a")], [("eventId", PyVal.str "b")],
        [("eventId", PyVal.str "c")], [("eventId", PyVal.str "d")],
        [("eventId", PyVal.str "e")]], Option.none⟩
      "m" "r" "u" "s" 2 Option.none).1,
   (c1_single_page_per_invocation
      ⟨[[("eventId", PyVal.str "a")], [("eventId", PyVal.str "b")],
        [("eventId", PyVal.str "c")], [("eventId", PyVal.str "d")],
        [("eventId", PyVal.str "e")]], Option.none⟩
      "m" "r" "u" "s" 2 Option.none).2.1,
   (c1_single_page_per_invocation
      ⟨[[("eventId", PyVal.str "a")], [("eventId", PyVal.str "b")],
        [("eventId", PyVal.str "c")], [("eventId", PyVal.str "d")],
        [("eventId", PyVal.str "e")]], Option.none⟩
      "m" "r" "u" "s" 2 Option.none).2.2
     [[("eventId", PyVal.str "a")], [("eventId", PyVal.str "b")]]
     (some (encodeCursor 2)) rfl⟩

/-- C5: a fetch whose page has no events prints exactly the literal
`"No events found."` and nothing else — no header, no summary, no cursor
notice — both for the rendering in isolation and through a whole
`fetch_history` invocation. -/
theorem c5_empty_page_output :
    (∀ u s rt, formatPage u s [] rt = (["No events found."], Option.none)) ∧
    (∀ svc m r u s limit tok rt n,
      fetchPage svc m r u s limit tok = (.ok ([], rt), n) →
      fetch_history svc m r u s limit tok
        = (["No events found."], Option.none, n)) := by
  constructor
  · intro u s rt
    rfl
  · intro svc m r u s limit tok rt n h
    unfold fetch_history
    rw [h]
    rfl

/-- C5 witness: fetching from a service with no stored events prints exactly
`"No events found."`. -/
theorem c5_witness :
    fetch_history ⟨[], Option.none⟩ "m" "r" "u" "s" 20 Option.none
      = (["No events found."], Option.none, 1) :=
  c5_empty_page_output.2 ⟨[], Option.none⟩ "m" "r" "u" "s" 20 Option.none
    Option.none 1 rfl

/-- C6 (code bug): `main` parses `--memory-id` and `--region` but then
overwrites both with hardcoded literals, so the supplied flag values are
never used for the fetch; the `--limit` and `--next-token` defaults do hold
as claimed. -/
theorem c6_memory_region_flags_ignored :
    (mainFetchArgs
        ⟨"u1", "s1", 20, Option.none, some "my-memory", some "us-east-1"⟩).1
      = "aqua_memory_v1-ou5CPqEFsu" ∧
    (mainFetchArgs
        ⟨"u1", "s1", 20, Option.none, some "my-memory", some "us-east-1"⟩).2.1
      = "eu-central-1" ∧
    ({ user_id := "u1", session_id := "s1" } : Args).limit = 20 ∧
    ({ user_id := "u1", session_id := "s1" } : Args).next_token = Option.none :=
  ⟨rfl, rfl, rfl, rfl⟩

/-- C7 counterexample: `format_event` is not total — a payload item whose
`conversational` value is not a mapping makes the Python function raise
`AttributeError` at `conv.get` instead of returning a string. -/
theorem c7_counterexample :
    format_event [("payload",
        PyVal.list [PyVal.dict [("conversational", PyVal.int 5)]])]
      = .error "AttributeError: object has no attribute get" := rfl

/-- C8: when the external API fails the request — authentication, not-found,
invalid-cursor or transport error — `fetch_history` neither catches nor
retries it: exactly one request is issued, the error value propagates
unmodified, and nothing is printed. -/
theorem c8_api_errors_propagate (svc : MemoryService) (e : ApiError)
    (m r u s : String) (limit : Nat) (tok : Option String)
    (h : svc.failure = some e) :
    fetch_history svc m r u s limit tok
      = ([], some (FetchError.api e), 1) := by
  have hsvc : svcListEvents svc limit (truthyToken tok) = .error e := by
    unfold svcListEvents
    rw [h]
  have hfp : fetchPage svc m r u s limit tok = (.error e, 1) := by
    unfold fetchPage
    rw [hsvc]
  unfold fetch_history
  rw [hfp]

/-- C8 witness: a transport failure on a service with stored events is
surfaced as-is, after a single request and with no output. -/
theorem c8_witness :
    fetch_history ⟨[[("eventId", PyVal.str "a")]],
        some ApiError.transportError⟩ "m" "r" "u" "s" 20 Option.none
      = ([], some (FetchError.api ApiError.transportError), 1) :=
  c8_api_errors_propagate ⟨[[("eventId", PyVal.str "a")]],
      some ApiError.transportError⟩ ApiError.transportError
    "m" "r" "u" "s" 20 Option.none rfl

/-- The spec's description of the joined text (data model §3, testable
property §8): the fragments' `text` string values, in their original order;
a fragment lacking a `text` field contributes nothing at all. -/
def fragmentTexts (frags : List PyVal) : List String :=
  frags.filterMap fun f =>
    match f with
    | PyVal.dict d =>
        match d.lookup "text" with
        | some (PyVal.str t) => some t
        | _ => none
    | _ => none

theorem textParts_eq_map (frags : List PyVal)
    (h : ∀ f ∈ frags, ∃ d, f = PyVal.dict d ∧
      ∀ v, d.lookup "text" = some v → ∃ t, v = PyVal.str t) :
    textParts frags = (fragmentTexts frags).map PyVal.str := by
  induction frags with
  | nil => rfl
  | cons f fs ih =>
      obtain ⟨d, rfl, hv⟩ := h _ (List.mem_cons_self f fs)
      have hrest := ih fun g hg => h g (List.mem_cons_of_mem _ hg)
      cases hl : d.lookup "text" with
      | none =>
          simp only [textParts, fragmentTexts, List.filterMap_cons, hl]
          exact hrest
      | some v =>
          obtain ⟨t, rfl⟩ := hv v hl
          simp only [textParts, fragmentTexts, List.filterMap_cons, hl,
            List.map_cons]
          exact congrArg (PyVal.str t :: ·) hrest

theorem joinParts_map_str (l : List String) :
    joinParts (l.map PyVal.str) = .ok l := by
  induction l with
  | nil => rfl
  | cons s rest ih =>
      show (match joinParts (rest.map PyVal.str) with
            | .ok l => Except.ok (s :: l)
            | .error m => Except.error m) = Except.ok (s :: rest)
      rw [ih]

/-- C3: for a conversational payload item whose content is a list of
fragment mappings (with string `text` values where present), the rendered
text is exactly the fragments' `text` values, in order, joined by a single
space; a fragment without `text` contributes nothing — no empty string, no
extra separator. -/
theorem c3_fragment_texts_joined (role : String) (frags : List PyVal)
    (h : ∀ f ∈ frags, ∃ d, f = PyVal.dict d ∧
      ∀ v, d.lookup "text" = some v → ∃ t, v = PyVal.str t) :
    formatItem (PyVal.dict [("conversational",
        PyVal.dict [("role", PyVal.str role), ("content", PyVal.list frags)])])
      = .ok (some ("[" ++ strUpper role ++ "] "
          ++ String.intercalate " " (fragmentTexts frags))) := by
  have hkey : formatItem (PyVal.dict [("conversational",
      PyVal.dict [("role", PyVal.str role), ("content", PyVal.list frags)])])
      = exBind (contentToVal (PyVal.list frags)) fun content2 =>
          Except.ok (some ("[" ++ strUpper role ++ "] "
            ++ pyStrOf content2)) := rfl
  rw [hkey]
  simp only [contentToVal]
  rw [textParts_eq_map frags h]
  unfold pyJoin
  rw [joinParts_map_str]
  rfl

/-- C3 witness: the spec §8 scenario fragments, with a textless fragment
inserted, render as `"[ASSISTANT] hello there"`. -/
theorem c3_witness :
    formatItem (PyVal.dict [("conversational",
        PyVal.dict [("role", PyVal.str "assistant"),
          ("content", PyVal.list
            [PyVal.dict [("text", PyVal.str "hello")],
             PyVal.dict [("kind", PyVal.str "image")],
             PyVal.dict [("text", PyVal.str "there")]])])])
      = .ok (some "[ASSISTANT] hello there") := by
  rw [c3_fragment_texts_joined "assistant"
    [PyVal.dict [("text", PyVal.str "hello")],
     PyVal.dict [("kind", PyVal.str "image")],
     PyVal.dict [("text", PyVal.str "there")]] ?_]
  · rfl
  · intro f hf
    simp only [List.mem_cons, List.not_mem_nil, or_false] at hf
    rcases hf with rfl | rfl | rfl
    · exact ⟨_, rfl, fun v hv => ⟨"hello", by
        simp only [List.lookup] at hv
        injection hv with hv
        exact hv.symm⟩⟩
    · exact ⟨_, rfl, fun v hv => by simp [List.lookup] at hv⟩
    · exact ⟨_, rfl, fun v hv => ⟨"there", by
        simp only [List.lookup] at hv
        injection hv with hv
        exact hv.symm⟩⟩

theorem formatItems_all_skip (items : List PyVal)
    (h : ∀ i ∈ items, pyContainsStr "conversational" i = .ok false) :
    formatItems items = .ok [] := by
  induction items with
  | nil => rfl
  | cons i rest ih =>
      unfold formatItems formatItem
      rw [h i (List.mem_cons_self i rest)]
      exact ih fun j hj => h j (List.mem_cons_of_mem i hj)

/-- C4: an event whose payload contains no `conversational` item renders as
the placeholder `"(no conversational content)"`, prefixed with the event's
id and timestamp, and the rendering is never the empty string. -/
theorem c4_no_conversational_placeholder (event : PyDict)
    (items : List PyVal)
    (hiter : pyIter (pyGet event "payload" (PyVal.list [])) = .ok items)
    (hnone : ∀ i ∈ items, pyContainsStr "conversational" i = .ok false) :
    format_event event
      = .ok ("Event " ++ pyStrOf (pyGet event "eventId" (PyVal.str "unknown"))
          ++ " (" ++ pyStrOf (pyGet event "createdAt" (PyVal.str ""))
          ++ "): (no conversational content)") ∧
    (∀ sOut, format_event event = .ok sOut → sOut ≠ "") := by
  have hfi := formatItems_all_skip items hnone
  constructor
  · have h1 : format_event event
        = (match formatItems items with
           | .error m => .error m
           | .ok lines =>
               if lines.isEmpty then
                 .ok ("Event "
                   ++ pyStrOf (pyGet event "eventId" (PyVal.str "unknown"))
                   ++ " (" ++ pyStrOf (pyGet event "createdAt" (PyVal.str ""))
                   ++ "): (no conversational content)")
               else
                 .ok ("Event "
                   ++ pyStrOf (pyGet event "eventId" (PyVal.str "unknown"))
                   ++ " (" ++ pyStrOf (pyGet event "createdAt" (PyVal.str ""))
                   ++ "):\n"
                   ++ String.intercalate "\n"
                     (lines.map fun l => "  " ++ l))) := by
      unfold format_event
      rw [hiter]
    rw [h1, hfi]
    rfl
  · intro sOut hs
    exact format_event_ne_empty event sOut hs

/-- C4 witness: an event whose only payload item is a non-conversational
mapping gets the exact placeholder line. -/
theorem c4_witness :
    format_event [("eventId", PyVal.str "e9"), ("createdAt", PyVal.str "t9"),
        ("payload", PyVal.list [PyVal.dict [("branch", PyVal.noneV)]])]
      = .ok "Event e9 (t9): (no conversational content)" := by
  have h := (c4_no_conversational_placeholder
    [("eventId", PyVal.str "e9"), ("createdAt", PyVal.str "t9"),
     ("payload", PyVal.list [PyVal.dict [("branch", PyVal.noneV)]])]
    [PyVal.dict [("branch", PyVal.noneV)]] rfl ?_).1
  · exact h
  · intro i hi
    simp only [List.mem_cons, List.not_mem_nil, or_false] at hi
    subst hi
    rfl

/-- C10: every string `format_event` returns begins with
`"Event <id> (<timestamp>)"`, where `<id>` is the `eventId` value (the
literal `"unknown"` when absent) and `<timestamp>` the `createdAt` value
(empty when absent); in particular the line is never empty. -/
theorem c10_event_line_lead (event : PyDict) (s : String)
    (h : format_event event = .ok s) :
    (∃ r, s = "Event "
        ++ pyStrOf (pyGet event "eventId" (PyVal.str "unknown"))
        ++ " (" ++ pyStrOf (pyGet event "createdAt" (PyVal.str "")) ++ ")"
        ++ r)
      ∧ s ≠ "" :=
  ⟨format_event_shape event s h, format_event_ne_empty event s h⟩

/-- C10 witness: an event missing both `eventId` and `createdAt` still
renders a non-empty line led by `"Event unknown ()"`. -/
theorem c10_witness :
    (∃ r, "Event unknown (): (no conversational content)"
        = "Event " ++ pyStrOf (pyGet [] "eventId" (PyVal.str "unknown"))
          ++ " (" ++ pyStrOf (pyGet [] "createdAt" (PyVal.str "")) ++ ")"
          ++ r)
      ∧ "Event unknown (): (no conversational content)" ≠ "" :=
  c10_event_line_lead [] "Event unknown (): (no conversational content)" rfl

theorem decodeCursor_encodeCursor (n : Nat) :
    decodeCursor (encodeCursor n) = some n := by
  unfold decodeCursor encodeCursor
  have hd : (String.mk (List.replicate n 'x')).data = List.replicate n 'x' := rfl
  rw [hd, if_pos]
  · rw [List.length_replicate]
  · rw [List.all_eq_true]
    intro c hc
    rw [(List.mem_replicate.mp hc).2]
    rfl

theorem encodeCursor_isEmpty_false (n : Nat) (hn : n ≠ 0) :
    (encodeCursor n).isEmpty = false := by
  rw [Bool.eq_false_iff]
  intro h
  have he := (String.isEmpty_iff (encodeCursor n)).mp h
  have hd := congrArg String.data he
  have : (List.replicate n 'x').length = ([] : List Char).length :=
    congrArg List.length hd
  rw [List.length_replicate] at this
  exact hn this

theorem fetchPage_ok_inv (svc : MemoryService) (m r u s : String)
    (limit : Nat) (tok : Option String) (evs : List PyDict)
    (rt : Option String) (n : Nat)
    (h : fetchPage svc m r u s limit tok = (.ok (evs, rt), n)) :
    n = 1 ∧ svcListEvents svc limit (truthyToken tok) = .ok (evs, rt) := by
  unfold fetchPage at h
  cases hs : svcListEvents svc limit (truthyToken tok) with
  | error e =>
      rw [hs] at h
      injection h with h1 h2
      exact absurd h1 (by simp)
  | ok p =>
      obtain ⟨a, b⟩ := p
      rw [hs] at h
      injection h with h1 h2
      exact ⟨h2.symm, h1⟩

theorem svcListEvents_ok_inv (svc : MemoryService) (pageSize : Nat)
    (startTok : Option String) (evs : List PyDict) (rt : Option String)
    (h : svcListEvents svc pageSize startTok = .ok (evs, rt)) :
    svc.failure = Option.none ∧ ∃ start,
      (match startTok with
       | none => some 0
       | some t => decodeCursor t) = some start ∧
      evs = (svc.events.drop start).take pageSize ∧
      rt = (if start + pageSize < svc.events.length then
              some (encodeCursor (start + pageSize))
            else Option.none) := by
  unfold svcListEvents at h
  split at h
  · simp at h
  · next hfail =>
      split at h
      · injection h with h
        rw [svcPageAt] at h
        injection h with h1 h2
        exact ⟨hfail, 0, rfl, h1.symm, h2.symm⟩
      · next t =>
          split at h
          · simp at h
          · next start hdec =>
              injection h with h
              rw [svcPageAt] at h
              injection h with h1 h2
              exact ⟨hfail, start, hdec, h1.symm, h2.symm⟩

/-- C9: a continuation cursor returned by any `fetchPage` call for a query —
whether that call started from the beginning or was itself a resumption —
fed back into `fetchPage` for the same query, resumes rather than restarts
the event sequence: the first page is the `limit`-event slice of the log at
the position the originating call read from, and the concatenation of the
two pages is the `limit + limit`-event slice at that same position — in
order, consecutive, no duplicates, no gaps (the service's log being
unchanged between the calls). -/
theorem c9_cursor_round_trip (svc : MemoryService) (m r u s : String)
    (limit : Nat) (tok0 : Option String) (evs1 evs2 : List PyDict)
    (t : String) (rt2 : Option String) (n1 n2 : Nat)
    (h1 : fetchPage svc m r u s limit tok0 = (.ok (evs1, some t), n1))
    (h2 : fetchPage svc m r u s limit (some t) = (.ok (evs2, rt2), n2)) :
    ∃ start, evs1 = (svc.events.drop start).take limit ∧
      evs1 ++ evs2 = (svc.events.drop start).take (limit + limit) := by
  obtain ⟨hn1, hs1⟩ := fetchPage_ok_inv svc m r u s limit tok0
    evs1 (some t) n1 h1
  obtain ⟨hfail, start1, hstart1, hevs1, hrt1⟩ :=
    svcListEvents_ok_inv svc limit (truthyToken tok0) evs1 (some t) hs1
  have ht : t = encodeCursor (start1 + limit)
      ∧ start1 + limit < svc.events.length := by
    by_cases hc : start1 + limit < svc.events.length
    · rw [if_pos hc] at hrt1
      injection hrt1 with h
      exact ⟨h, hc⟩
    · rw [if_neg hc] at hrt1
      simp at hrt1
  obtain ⟨ht, hlt⟩ := ht
  subst ht
  obtain ⟨hn2, hs2⟩ := fetchPage_ok_inv svc m r u s limit
    (some (encodeCursor (start1 + limit))) evs2 rt2 n2 h2
  refine ⟨start1, hevs1, ?_⟩
  by_cases hz : start1 + limit = 0
  · have hst0 : start1 = 0 := by omega
    have hl0 : limit = 0 := by omega
    subst hst0
    subst hl0
    have htt : truthyToken (some (encodeCursor 0)) = Option.none := rfl
    rw [htt] at hs2
    obtain ⟨_, start2, _, hevs2, _⟩ :=
      svcListEvents_ok_inv svc 0 Option.none evs2 rt2 hs2
    rw [List.take_zero] at hevs1
    rw [List.take_zero] at hevs2
    subst hevs1
    subst hevs2
    simp
  · have htt : truthyToken (some (encodeCursor (start1 + limit)))
        = some (encodeCursor (start1 + limit)) := by
      show (if (encodeCursor (start1 + limit)).isEmpty = true then Option.none
            else some (encodeCursor (start1 + limit)))
          = some (encodeCursor (start1 + limit))
      rw [encodeCursor_isEmpty_false (start1 + limit) hz]
      rfl
    rw [htt] at hs2
    obtain ⟨_, start2, hstart2, hevs2, _⟩ :=
      svcListEvents_ok_inv svc limit (some (encodeCursor (start1 + limit)))
        evs2 rt2 hs2
    have hstart2' : start2 = start1 + limit := by
      simp only [decodeCursor_encodeCursor] at hstart2
      injection hstart2 with h
      exact h.symm
    rw [hstart2'] at hevs2
    subst hevs1
    subst hevs2
    rw [List.take_add, List.drop_drop]

/-- C9 witness: five stored events, page size two, resuming a page-2 fetch
(cursor position 2): the page-2 cursor makes the next fetch return exactly
the fifth event, and the two pages concatenate to the four-event slice at
position 2 (= the last three stored events). -/
theorem c9_witness :
    ∃ start,
      [[("eventId", PyVal.str "c")], [("eventId", PyVal.str "d")]]
        = (([[("eventId", PyVal.str "a")], [("eventId", PyVal.str "b")],
            [("eventId", PyVal.str "c")], [("eventId", PyVal.str "d")],
            [("eventId", PyVal.str "e")]] : List PyDict).drop start).take 2 ∧
      [[("eventId", PyVal.str "c")], [("eventId", PyVal.str "d")]]
          ++ [[("eventId", PyVal.str "e")]]
        = (([[("eventId", PyVal.str "a")], [("eventId", PyVal.str "b")],
            [("eventId", PyVal.str "c")], [("eventId", PyVal.str "d")],
            [("eventId", PyVal.str "e")]] : List PyDict).drop start).take
            (2 + 2) :=
  c9_cursor_round_trip
    ⟨[[("eventId", PyVal.str "a")], [("eventId", PyVal.str "b")],
      [("eventId", PyVal.str "c")], [("eventId", PyVal.str "d")],
      [("eventId", PyVal.str "e")]], Option.none⟩
    "m" "r" "u" "s" 2 (some (encodeCursor 2))
    [[("eventId", PyVal.str "c")], [("eventId", PyVal.str "d")]]
    [[("eventId", PyVal.str "e")]]
    (encodeCursor 4) Option.none 1 1 rfl rfl

/-! ### Totality of `format_event` on well-shaped events (C7) -/

/-- A content fragment is well-shaped when, if it is a mapping carrying a
`text` key, the `text` value is a string; all other fragments are skipped by
the comprehension's guard. -/
def WFFrag (f : PyVal) : Prop :=
  ∀ d, f = PyVal.dict d → ∀ v, d.lookup "text" = some v → ∃ t, v = PyVal.str t

/-- A payload item is well-shaped when it is a mapping whose
`conversational` value, if present, is a mapping with a string `role` (when
present) and with well-shaped fragments whenever its `content` is a list. -/
def WFItem (item : PyVal) : Prop :=
  ∃ d, item = PyVal.dict d ∧
    ∀ conv, d.lookup "conversational" = some conv →
      ∃ cd, conv = PyVal.dict cd ∧
        (∀ rv, cd.lookup "role" = some rv → ∃ rs, rv = PyVal.str rs) ∧
        (∀ frags, cd.lookup "content" = some (PyVal.list frags) →
          ∀ f ∈ frags, WFFrag f)

/-- An event is well-shaped when its payload (after the `.get` default) is a
list of well-shaped items; any field may be missing. -/
def WFEvent (event : PyDict) : Prop :=
  ∃ items, pyGet event "payload" (PyVal.list []) = PyVal.list items ∧
    ∀ i ∈ items, WFItem i

theorem lookup_some_of_any (d : PyDict) (k : String)
    (h : (d.any fun kv => kv.1 == k) = true) : ∃ v, d.lookup k = some v := by
  induction d with
  | nil => simp at h
  | cons kv rest ih =>
      obtain ⟨k1, v1⟩ := kv
      by_cases hk : k1 = k
      · subst hk
        exact ⟨v1, by simp [List.lookup]⟩
      · have hr : (rest.any fun kv => kv.1 == k) = true := by
          simp only [List.any_cons] at h
          rcases Bool.or_eq_true_iff.mp h with h1 | h1
          · exact absurd (beq_iff_eq.mp h1) hk
          · exact h1
        obtain ⟨v, hv⟩ := ih hr
        refine ⟨v, ?_⟩
        have hkk : (k == k1) = false := by
          rw [Bool.eq_false_iff]
          intro hb
          exact hk (beq_iff_eq.mp hb).symm
        simp [List.lookup, hkk, hv]

theorem textParts_strings (frags : List PyVal) (h : ∀ f ∈ frags, WFFrag f) :
    ∀ p ∈ textParts frags, ∃ t, p = PyVal.str t := by
  intro p hp
  unfold textParts at hp
  obtain ⟨f, hf, hg⟩ := List.mem_filterMap.mp hp
  cases f with
  | dict d => exact h _ hf d rfl p hg
  | str s => exact Option.noConfusion hg
  | int n => exact Option.noConfusion hg
  | bool b => exact Option.noConfusion hg
  | noneV => exact Option.noConfusion hg
  | list l => exact Option.noConfusion hg

theorem joinParts_total (parts : List PyVal)
    (h : ∀ p ∈ parts, ∃ t, p = PyVal.str t) :
    ∃ l, joinParts parts = .ok l := by
  induction parts with
  | nil => exact ⟨[], rfl⟩
  | cons p rest ih =>
      obtain ⟨t, rfl⟩ := h _ (List.mem_cons_self p rest)
      obtain ⟨l, hl⟩ := ih fun q hq => h q (List.mem_cons_of_mem _ hq)
      refine ⟨t :: l, ?_⟩
      show (match joinParts rest with
            | .ok l2 => Except.ok (t :: l2)
            | .error m => Except.error m) = Except.ok (t :: l)
      rw [hl]

theorem contentToVal_total (cd : PyDict)
    (hcontent : ∀ frags, cd.lookup "content" = some (PyVal.list frags) →
      ∀ f ∈ frags, WFFrag f) :
    ∃ c2, contentToVal ((cd.lookup "content").getD (PyVal.str "")) = .ok c2 := by
  cases hc2 : cd.lookup "content" with
  | none => exact ⟨PyVal.str "", rfl⟩
  | some v =>
      cases v with
      | list frags =>
          obtain ⟨l, hl⟩ := joinParts_total (textParts frags)
            (textParts_strings frags (hcontent frags hc2))
          refine ⟨PyVal.str (String.intercalate " " l), ?_⟩
          show contentToVal (PyVal.list frags) = _
          simp only [contentToVal]
          unfold pyJoin
          rw [hl]
          rfl
      | str s => exact ⟨PyVal.str s, rfl⟩
      | int n => exact ⟨PyVal.int n, rfl⟩
      | bool b => exact ⟨PyVal.bool b, rfl⟩
      | noneV => exact ⟨PyVal.noneV, rfl⟩
      | dict d2 => exact ⟨PyVal.dict d2, rfl⟩

theorem formatItem_total (item : PyVal) (h : WFItem item) :
    ∃ o, formatItem item = .ok o := by
  obtain ⟨d, rfl, hconv⟩ := h
  have hc : pyContainsStr "conversational" (PyVal.dict d)
      = .ok (d.any fun kv => kv.1 == "conversational") := rfl
  cases hb : (d.any fun kv => kv.1 == "conversational") with
  | false =>
      refine ⟨none, ?_⟩
      unfold formatItem
      rw [hc, hb]
      rfl
  | true =>
      obtain ⟨conv, hlook⟩ := lookup_some_of_any d "conversational" hb
      obtain ⟨cd, hcd, hrole, hcontent⟩ := hconv conv hlook
      subst hcd
      have hgi : pyGetItemStr (PyVal.dict d) "conversational"
          = .ok (PyVal.dict cd) := by
        show (match List.lookup "conversational" d with
              | some x => Except.ok x
              | none => Except.error "KeyError") = Except.ok (PyVal.dict cd)
        rw [hlook]
      have hro : pyDotGet (PyVal.dict cd) "role" (PyVal.str "UNKNOWN")
          = .ok ((cd.lookup "role").getD (PyVal.str "UNKNOWN")) := rfl
      have hrs : ∃ rs, (cd.lookup "role").getD (PyVal.str "UNKNOWN")
          = PyVal.str rs := by
        cases hr : cd.lookup "role" with
        | none => exact ⟨"UNKNOWN", rfl⟩
        | some rv =>
            obtain ⟨rs, hrv⟩ := hrole rv hr
            exact ⟨rs, by rw [Option.getD_some, hrv]⟩
      obtain ⟨rs, hrs⟩ := hrs
      have hco : pyDotGet (PyVal.dict cd) "content" (PyVal.str "")
          = .ok ((cd.lookup "content").getD (PyVal.str "")) := rfl
      obtain ⟨c2, hc2⟩ := contentToVal_total cd hcontent
      refine ⟨some ("[" ++ strUpper rs ++ "] " ++ pyStrOf c2), ?_⟩
      unfold formatItem
      rw [hc, hb]
      simp only [exBind, if_true, hgi, hro, hrs, hco, hc2, pyUpper]

theorem formatItems_total (items : List PyVal) (h : ∀ i ∈ items, WFItem i) :
    ∃ ls, formatItems items = .ok ls := by
  induction items with
  | nil => exact ⟨[], rfl⟩
  | cons i rest ih =>
      obtain ⟨o, ho⟩ := formatItem_total i (h i (List.mem_cons_self i rest))
      obtain ⟨ls, hls⟩ := ih fun j hj => h j (List.mem_cons_of_mem i hj)
      cases o with
      | some line =>
          refine ⟨line :: ls, ?_⟩
          unfold formatItems
          rw [ho, hls]
      | none =>
          refine ⟨ls, ?_⟩
          unfold formatItems
          rw [ho]
          exact hls

/-- C7 (amended): `format_event` terminates with a string on every event
whose present fields are well-shaped — payload (after defaulting) a list of
mapping items, `conversational` values mappings, `role` values strings, and
list-content fragments carrying only string `text` values — with missing
fields degrading to defaults; on payload items or field values of unexpected
shape it raises instead (see the counterexample). -/
theorem c7_total_on_well_shaped (event : PyDict) (h : WFEvent event) :
    ∃ s, format_event event = .ok s := by
  obtain ⟨items, hpay, hitems⟩ := h
  obtain ⟨lines, hlines⟩ := formatItems_total items hitems
  have hiter : pyIter (pyGet event "payload" (PyVal.list [])) = .ok items := by
    rw [hpay]
    rfl
  have h1 : format_event event
      = (match formatItems items with
         | .error m => .error m
         | .ok lines2 =>
             if lines2.isEmpty then
               .ok ("Event "
                 ++ pyStrOf (pyGet event "eventId" (PyVal.str "unknown"))
                 ++ " (" ++ pyStrOf (pyGet event "createdAt" (PyVal.str ""))
                 ++ "): (no conversational content)")
             else
               .ok ("Event "
                 ++ pyStrOf (pyGet event "eventId" (PyVal.str "unknown"))
                 ++ " (" ++ pyStrOf (pyGet event "createdAt" (PyVal.str ""))
                 ++ "):\n"
                 ++ String.intercalate "\n"
                   (lines2.map fun l => "  " ++ l))) := by
    unfold format_event
    rw [hiter]
  have h2 : format_event event
      = if lines.isEmpty then
          .ok ("Event "
            ++ pyStrOf (pyGet event "eventId" (PyVal.str "unknown"))
            ++ " (" ++ pyStrOf (pyGet event "createdAt" (PyVal.str ""))
            ++ "): (no conversational content)")
        else
          .ok ("Event "
            ++ pyStrOf (pyGet event "eventId" (PyVal.str "unknown"))
            ++ " (" ++ pyStrOf (pyGet event "createdAt" (PyVal.str ""))
            ++ "):\n"
            ++ String.intercalate "\n" (lines.map fun l => "  " ++ l)) := by
    rw [h1, hlines]
  cases hle : lines.isEmpty with
  | true => exact ⟨_, by rw [h2, if_pos hle]⟩
  | false => exact ⟨_, by rw [h2, if_neg (by simp [hle])]⟩

/-- C7 amended-claim witness: the spec §8 scenario event is well-shaped and
`format_event` succeeds on it. -/
theorem c7_witness :
    WFEvent [("eventId", PyVal.str "e1"), ("createdAt", PyVal.str "t1"),
      ("payload", PyVal.list [PyVal.dict [("conversational",
        PyVal.dict [("role", PyVal.str "user"),
          ("content", PyVal.str "hi")])]])] ∧
    ∃ s, format_event [("eventId", PyVal.str "e1"),
      ("createdAt", PyVal.str "t1"),
      ("payload", PyVal.list [PyVal.dict [("conversational",
        PyVal.dict [("role", PyVal.str "user"),
          ("content", PyVal.str "hi")])]])] = .ok s := by
  have hwf : WFEvent [("eventId", PyVal.str "e1"), ("createdAt", PyVal.str "t1"),
      ("payload", PyVal.list [PyVal.dict [("conversational",
        PyVal.dict [("role", PyVal.str "user"),
          ("content", PyVal.str "hi")])]])] := by
    refine ⟨[PyVal.dict [("conversational",
      PyVal.dict [("role", PyVal.str "user"),
        ("content", PyVal.str "hi")])]], rfl, ?_⟩
    intro i hi
    simp only [List.mem_cons, List.not_mem_nil, or_false] at hi
    subst hi
    refine ⟨_, rfl, ?_⟩
    intro conv hconv
    simp only [List.lookup] at hconv
    injection hconv with hconv
    refine ⟨_, hconv.symm, ?_, ?_⟩
    · intro rv hrv
      simp only [List.lookup] at hrv
      injection hrv with hrv
      exact ⟨"user", hrv.symm⟩
    · intro frags hfr
      simp only [List.lookup] at hfr
      injection hfr with hfr
      exact absurd hfr (by simp)
  exact ⟨hwf, c7_total_on_well_shaped _ hwf⟩

/-! ### The cursor notice of `formatPage` (C2) -/

theorem strTake3_header (u s : String) :
    strTake 3 ("=== Conversation History (user: " ++ u ++ ", session: "
      ++ s ++ ") ===\n") = ['=', '=', '='] := by
  have h1 : (3 : Nat)
      ≤ ("=== Conversation History (user: " : String).data.length := by decide
  have h2 := le_data_length_append 3 _ u h1
  have h3 := le_data_length_append 3 _ ", session: " h2
  have h4 := le_data_length_append 3 _ s h3
  rw [strTake_append_left 3 _ ") ===\n" h4, strTake_append_left 3 _ s h3,
      strTake_append_left 3 _ ", session: " h2,
      strTake_append_left 3 _ u h1]
  decide

theorem strTake3_summary (n : Nat) :
    strTake 3 ("--- Showing " ++ toString n ++ " event(s) ---")
      = ['-', '-', '-'] := by
  have h1 : (3 : Nat) ≤ ("--- Showing " : String).data.length := by decide
  have h2 := le_data_length_append 3 _ (toString n) h1
  rw [strTake_append_left 3 _ " event(s) ---" h2,
      strTake_append_left 3 _ (toString n) h1]
  decide

theorem strTake3_tokline (t : String) :
    strTake 3 ("--next-token \"" ++ t ++ "\"") = ['-', '-', 'n'] := by
  have h1 : (3 : Nat) ≤ ("--next-token \"" : String).data.length := by decide
  have h2 := le_data_length_append 3 _ t h1
  rw [strTake_append_left 3 _ "\"" h2, strTake_append_left 3 _ t h1]
  decide

theorem strTake3_event (x : String) (h : strTake 6 x = "Event ".data) :
    strTake 3 x = ['E', 'v', 'e'] := by
  have h36 : strTake 3 x = (strTake 6 x).take 3 := by
    unfold strTake
    rw [List.take_take]
    norm_num
  rw [h36, h]
  decide

theorem blocks_strTake3 (evs : List PyDict) (blocks : List String)
    (err : Option String) (hrb : renderBlocks evs = (blocks, err))
    (x : String) (hx : x ∈ blocks) :
    x = "" ∨ strTake 3 x = ['E', 'v', 'e'] :=
  (renderBlocks_mem evs blocks err hrb x hx).imp id (strTake3_event x)

/-- Every line of a page rendering is the header, a per-event line, the
blank separator, the summary, or part of the cursor tail. -/
theorem out_member_kinds (u s : String) (evs : List PyDict)
    (blocks : List String) (err : Option String) (tail : List String)
    (hrb : renderBlocks evs = (blocks, err)) (x : String)
    (hx : x ∈ ("=== Conversation History (user: " ++ u ++ ", session: "
        ++ s ++ ") ===\n") :: blocks
        ++ ["--- Showing " ++ toString evs.length ++ " event(s) ---"]
        ++ tail) :
    strTake 3 x = ['=', '=', '='] ∨ x = "" ∨ strTake 3 x = ['E', 'v', 'e']
      ∨ strTake 3 x = ['-', '-', '-'] ∨ x ∈ tail := by
  rcases List.mem_cons.mp hx with h | hx1
  · exact Or.inl (by rw [h]; exact strTake3_header u s)
  · rcases List.mem_append.mp hx1 with hx2 | hx5
    · rcases List.mem_append.mp hx2 with hx3 | hx4
      · rcases blocks_strTake3 evs blocks err hrb x hx3 with h0 | h3
        · exact Or.inr (Or.inl h0)
        · exact Or.inr (Or.inr (Or.inl h3))
      · refine Or.inr (Or.inr (Or.inr (Or.inl ?_)))
        rw [List.mem_singleton.mp hx4]
        exact strTake3_summary evs.length
    · exact Or.inr (Or.inr (Or.inr (Or.inr hx5)))

/-- C2: for every non-empty page result the rendering emits the resumption
instructions — including the literal cursor value — if and only if a
continuation cursor is present after the fetch: with a cursor both
instruction lines appear and the `"No more events."` notice does not; with
no cursor the notice appears and no instruction line of any cursor value
does.  (A fetch never produces an empty-string cursor; the last hypothesis
records that.) -/
theorem c2_cursor_notice_iff (u s : String) (evs : List PyDict)
    (rt : Option String) (out : List String)
    (hne : evs ≠ [])
    (hok : formatPage u s evs rt = (out, Option.none))
    (hrt : ∀ t0, rt = some t0 → t0 ≠ "") :
    (∀ t, rt = some t →
      "\nMore events available. Use --next-token to fetch next page:" ∈ out ∧
      ("--next-token \"" ++ t ++ "\"") ∈ out ∧
      "\nNo more events." ∉ out) ∧
    (rt = Option.none →
      "\nNo more events." ∈ out ∧
      "\nMore events available. Use --next-token to fetch next page:" ∉ out ∧
      ∀ t, ("--next-token \"" ++ t ++ "\"") ∉ out) := by
  have hemp : ¬(evs.isEmpty = true) := by
    cases evs with
    | nil => exact absurd rfl hne
    | cons a l => exact fun hb => Bool.noConfusion hb
  obtain ⟨blocks, err, hrb⟩ : ∃ b e, renderBlocks evs = (b, e) := ⟨_, _, rfl⟩
  unfold formatPage at hok
  rw [if_neg hemp, hrb] at hok
  cases err with
  | some e =>
      injection hok with h1 h2
      exact Option.noConfusion h2
  | none =>
      injection hok with h1 h2
      subst h1
      constructor
      · intro t htEq
        subst htEq
        have htne : t ≠ "" := hrt t rfl
        have hti : t.isEmpty = false := by
          rw [Bool.eq_false_iff]
          intro hb
          exact htne ((String.isEmpty_iff t).mp hb)
        have htail : cursorTail (some t)
            = ["\nMore events available. Use --next-token to fetch next page:",
               "--next-token \"" ++ t ++ "\""] := by
          simp only [cursorTail, hti, Bool.false_eq_true, if_false]
        refine ⟨by rw [htail]; simp, by rw [htail]; simp, ?_⟩
        intro hmem
        rcases out_member_kinds u s evs blocks Option.none
          (cursorTail (some t)) hrb _ hmem with hA | hB | hC | hD | hE
        · exact absurd hA (by decide)
        · exact absurd hB (by decide)
        · exact absurd hC (by decide)
        · exact absurd hD (by decide)
        · rw [htail] at hE
          rcases List.mem_cons.mp hE with h | h
          · exact absurd h (by decide)
          · have hh := strTake3_tokline t
            rw [← List.mem_singleton.mp h] at hh
            exact absurd hh (by decide)
      · intro htEq
        subst htEq
        have htail : cursorTail Option.none = ["\nNo more events."] := rfl
        refine ⟨by rw [htail]; simp, ?_, ?_⟩
        · intro hmem
          rcases out_member_kinds u s evs blocks Option.none
            (cursorTail Option.none) hrb _ hmem with hA | hB | hC | hD | hE
          · exact absurd hA (by decide)
          · exact absurd hB (by decide)
          · exact absurd hC (by decide)
          · exact absurd hD (by decide)
          · rw [htail] at hE
            exact absurd (List.mem_singleton.mp hE) (by decide)
        · intro t hmem
          have ht := strTake3_tokline t
          rcases out_member_kinds u s evs blocks Option.none
            (cursorTail Option.none) hrb _ hmem with hA | hB | hC | hD | hE
          · rw [ht] at hA
            exact absurd hA (by decide)
          · rw [hB] at ht
            exact absurd ht (by decide)
          · rw [ht] at hC
            exact absurd hC (by decide)
          · rw [ht] at hD
            exact absurd hD (by decide)
          · rw [htail] at hE
            rw [List.mem_singleton.mp hE] at ht
            exact absurd ht (by decide)

/-- C2 witness: a one-event page with cursor `"xx"` prints both resumption
lines (with the literal cursor) and no `"No more events."` notice; the same
page with no cursor would satisfy the other conjunct vacuously here. -/
theorem c2_witness :
    (∀ t, (some "xx" : Option String) = some t →
      "\nMore events available. Use --next-token to fetch next page:"
        ∈ ["=== Conversation History (user: u, session: s) ===\n",
           "Event a (): (no conversational content)", "",
           "--- Showing 1 event(s) ---",
           "\nMore events available. Use --next-token to fetch next page:",
           "--next-token \"xx\""] ∧
      ("--next-token \"" ++ t ++ "\"")
        ∈ ["=== Conversation History (user: u, session: s) ===\n",
           "Event a (): (no conversational content)", "",
           "--- Showing 1 event(s) ---",
           "\nMore events available. Use --next-token to fetch next page:",
           "--next-token \"xx\""] ∧
      "\nNo more events."
        ∉ ["=== Conversation History (user: u, session: s) ===\n",
           "Event a (): (no conversational content)", "",
           "--- Showing 1 event(s) ---",
           "\nMore events available. Use --next-token to fetch next page:",
           "--next-token \"xx\""]) ∧
    ((some "xx" : Option String) = Option.none →
      "\nNo more events."
        ∈ ["=== Conversation History (user: u, session: s) ===\n",
           "Event a (): (no conversational content)", "",
           "--- Showing 1 event(s) ---",
           "\nMore events available. Use --next-token to fetch next page:",
           "--next-token \"xx\""] ∧
      "\nMore events available. Use --next-token to fetch next page:"
        ∉ ["=== Conversation History (user: u, session: s) ===\n",
           "Event a (): (no conversational content)", "",
           "--- Showing 1 event(s) ---",
           "\nMore events available. Use --next-token to fetch next page:",
           "--next-token \"xx\""] ∧
      ∀ t, ("--next-token \"" ++ t ++ "\"")
        ∉ ["=== Conversation History (user: u, session: s) ===\n",
           "Event a (): (no conversational content)", "",
           "--- Showing 1 event(s) ---",
           "\nMore events available. Use --next-token to fetch next page:",
           "--next-token \"xx\""]) :=
  c2_cursor_notice_iff "u" "s" [[("eventId", PyVal.str "a")]] (some "xx")
    ["=== Conversation History (user: u, session: s) ===\n",
     "Event a (): (no conversational content)", "",
     "--- Showing 1 event(s) ---",
     "\nMore events available. Use --next-token to fetch next page:",
     "--next-token \"xx\""]
    (fun h => List.noConfusion h) rfl
    (fun t0 ht => by cases ht; decide)

end AtomicAqua
